import Mathlib

/-!
Shallow embedding of the record-storage and category-statistics core of the
vibetrack repository (`src/backend/storage.py`, `src/backend/auth.py`, and the
`/visualizations` aggregation in `src/backend/main.py`), together with theorems
settling the specification claims about it.

Modelling conventions:
* Python dicts with a fixed field shape become structures; a field that may be
  absent from the dict becomes an `Option` field with `none` standing for "key
  absent".
* Python dicts used as string-keyed maps (the categories store, the
  distribution / pattern buckets) become association lists; `setA` mirrors
  `d[k] = v` (update in place keeping insertion order, append when fresh) and
  `lookupA` mirrors `d.get(k)`.
* The users file on disk is `Option UsersFile`: `none` is "file absent",
  `UsersFile.envelopeUsers us` is the `{"users": [...]}` envelope that
  `save_users` always writes, and `UsersFile.malformed` is any other JSON
  value (the `else` branch of `load_users`).
* `datetime.utcnow().isoformat()` becomes an explicit `now : String` argument,
  one per Python call (all `utcnow()` readings inside a single call are the
  same model timestamp).
* bcrypt hashing/verification and JWT decoding are external libraries; they
  are passed in as opaque function parameters.
-/

namespace VibeTrack

/-- Association-list lookup, mirroring Python `d.get(k)` on a string-keyed
dict (dicts preserve insertion order; lookup finds the unique binding). -/
def lookupA {α : Type} (k : String) : List (String × α) → Option α
  | [] => none
  | (k', v) :: rest => if k' = k then some v else lookupA k rest

/-- Association-list store, mirroring Python `d[k] = v`: an existing key keeps
its position, a fresh key is appended at the end (dict insertion order). -/
def setA {α : Type} (k : String) (v : α) : List (String × α) → List (String × α)
  | [] => [(k, v)]
  | (k', v') :: rest => if k' = k then (k, v) :: rest else (k', v') :: setA k v rest

/-! ## Users: data model (`storage.py`, `auth.py`) -/

/-- The `settings` sub-object written for every stored user. -/
structure Settings where
  theme : String
  notifications_enabled : Bool
deriving DecidableEq

/-- A stored user record (a Python dict).  `Option` fields model keys that
some records lack: `full_name` is only set when supplied at creation,
`last_login` only after a successful authentication, `is_demo` only on the
seeded demo account, and `hashed_password := none` models the record returned
to callers after `del user_response["hashed_password"]`. -/
structure UserRecord where
  username : String
  email : String
  hashed_password : Option String
  created_at : String
  settings : Settings
  elevenlabs_key : Option String
  full_name : Option String
  last_login : Option String
  is_demo : Option Bool
deriving DecidableEq

/-- One possible content of the persisted users file: either the
`{"users": [...]}` envelope or some JSON value without a `"users"` key. -/
inductive UsersFile where
  | envelopeUsers (users : List UserRecord)
  | malformed
deriving DecidableEq

/-- The persisted users collection: `none` when the file does not exist. -/
abbrev UsersDisk := Option UsersFile

/-- The demo account seeded by `load_users` when the users file is absent. -/
def demoUser (now : String) : UserRecord :=
  { username := "demo_user"
    email := "demo@vibetrack.com"
    hashed_password := some "$2b$12$LQv3c1yqBWVHxkd0LHAkCOYz6TtxMQJqhN9V3UF9T3HJGQZsuHhJi"
    created_at := now
    settings := { theme := "dark", notifications_enabled := true }
    elevenlabs_key := none
    full_name := none
    last_login := none
    is_demo := some true }

/-- Model of `storage.load_users`: returns the `"users"` list of the envelope, `[]` on
any other file content, and on a missing file seeds (and saves) the demo
account.  The disk state after the call is returned alongside, because the
missing-file branch performs a write. -/
def load_users (now : String) : UsersDisk → List UserRecord × UsersDisk
  | some (.envelopeUsers us) => (us, some (.envelopeUsers us))
  | some .malformed => ([], some .malformed)
  | none => ([demoUser now], some (.envelopeUsers [demoUser now]))

/-- Model of `storage.save_users`: always writes the `{"users": users}` envelope,
replacing whatever was on disk. -/
def save_users (users : List UserRecord) (_disk : UsersDisk) : UsersDisk :=
  some (.envelopeUsers users)

/-- The linear scan inside `storage.get_user_by_username`:
first record whose `"username"` equals the argument. -/
def find_username (username : String) : List UserRecord → Option UserRecord
  | [] => none
  | u :: us => if u.username = username then some u else find_username username us

/-- Model of `storage.get_user_by_username`: `load_users` then linear scan.  Threads the
disk state because `load_users` may write (demo seeding). -/
def get_user_by_username (now username : String) (disk : UsersDisk) :
    Option UserRecord × UsersDisk :=
  let r := load_users now disk
  (find_username username r.1, r.2)

/-- Input to `auth.create_user` (the `user_data` dict). -/
structure UserCreateData where
  username : String
  email : String
  password : String
  full_name : Option String
deriving DecidableEq

/-- The failure surfaced by `auth.create_user` when the username is taken
(`ValueError("Username already registered")`, re-raised as HTTP 400). -/
inductive CreateUserError where
  | duplicateUsername
deriving DecidableEq

/-- Dropping the password hash from a record handed back to the caller:
`user_response = user.copy(); del user_response["hashed_password"]`. -/
def stripPassword (u : UserRecord) : UserRecord :=
  { u with hashed_password := none }

/-- Model of `auth.create_user`: reject a duplicate username before any write;
otherwise hash the password, build the new record, append it to the loaded
collection and save.  `hash` stands for bcrypt `get_password_hash`. -/
def create_user (hash : String → String) (now : String) (d : UserCreateData)
    (disk : UsersDisk) : Except CreateUserError UserRecord × UsersDisk :=
  match get_user_by_username now d.username disk with
  | (some _, disk') => (.error .duplicateUsername, disk')
  | (none, disk') =>
    let new_user : UserRecord :=
      { username := d.username
        email := d.email
        hashed_password := some (hash d.password)
        created_at := now
        settings := { theme := "dark", notifications_enabled := true }
        elevenlabs_key := none
        full_name := d.full_name
        last_login := none
        is_demo := none }
    let r := load_users now disk'
    let disk'' := save_users (r.1 ++ [new_user]) r.2
    (.ok (stripPassword new_user), disk'')

/-- The `for u in users: ... u["last_login"] = now; break` loop of
`auth.authenticate_user`: stamp the first record with the given username. -/
def update_last_login (username now : String) : List UserRecord → List UserRecord
  | [] => []
  | u :: us =>
    if u.username = username then { u with last_login := some now } :: us
    else u :: update_last_login username now us

/-- Model of `auth.authenticate_user`: look the user up, verify the password
(`verify` stands for bcrypt `checkpw`), stamp `last_login` and save, then
return the found record without its password hash.  `none` on unknown user,
missing hash, or failed verification. -/
def authenticate_user (verify : String → String → Bool) (now username password : String)
    (disk : UsersDisk) : Option UserRecord × UsersDisk :=
  match get_user_by_username now username disk with
  | (none, disk') => (none, disk')
  | (some user, disk') =>
    match user.hashed_password with
    | none => (none, disk')
    | some hp =>
      if verify password hp then
        let r := load_users now disk'
        let disk'' := save_users (update_last_login username now r.1) r.2
        (some (stripPassword user), disk'')
      else (none, disk')

/-- The 401 raised by `auth.get_current_user` on a bad token or unknown user. -/
inductive AuthError where
  | credentialsException
deriving DecidableEq

/-- Model of `auth.get_current_user`: `decodeSub` stands for the JWT decode returning
the `"sub"` claim (`none` on decode failure or a missing claim); on success
the stored record is returned without its password hash. -/
def get_current_user (decodeSub : String → Option String) (now token : String)
    (disk : UsersDisk) : Except AuthError UserRecord × UsersDisk :=
  match decodeSub token with
  | none => (.error .credentialsException, disk)
  | some username =>
    match get_user_by_username now username disk with
    | (none, disk') => (.error .credentialsException, disk')
    | (some user, disk') => (.ok (stripPassword user), disk')

/-! ## Category counters (`storage.py`) -/

/-- The per-user sub-record inside a category counter
(`{"frequency": ..., "first_seen": ..., "last_used": ...}`). -/
structure UserStat where
  frequency : Nat
  first_seen : String
  last_used : Option String
deriving DecidableEq

/-- One category counter entry of the categories store. -/
structure CatEntry where
  frequency : Nat
  first_seen : String
  context_clues : List String
  related_categories : List String
  user_stats : List (String × UserStat)
deriving DecidableEq

/-- The categories store: a dict from category label to counter entry. -/
abbrev CatStore := List (String × CatEntry)

/-- The fresh entry created by `update_category_metadata` for an unseen
category. -/
def freshCatEntry (now : String) : CatEntry :=
  { frequency := 0
    first_seen := now
    context_clues := []
    related_categories := []
    user_stats := [] }

/-- The per-user block of `update_category_metadata`: create the sub-record
if absent (frequency 0, `first_seen` = now, `last_used` = None), then
increment its frequency and stamp `last_used` = now. -/
def touchUserStats (now user_id : String) (stats0 : List (String × UserStat)) :
    List (String × UserStat) :=
  let stats1 :=
    match lookupA user_id stats0 with
    | some _ => stats0
    | none => setA user_id { frequency := 0, first_seen := now, last_used := none } stats0
  match lookupA user_id stats1 with
  | some s => setA user_id { s with frequency := s.frequency + 1, last_used := some now } stats1
  | none => stats1

/-- The context-clue block of `update_category_metadata`: append the clue
when one is given, non-empty (Python `if context:`) and not already present. -/
def appendClue (context : Option String) (e : CatEntry) : CatEntry :=
  match context with
  | none => e
  | some ctx =>
    if ctx = "" then e
    else if ctx ∈ e.context_clues then e
    else { e with context_clues := e.context_clues ++ [ctx] }

/-- Model of `storage.update_category_metadata`: create the entry if absent, increment
its global frequency, create/increment the per-user sub-record, append the
context clue, store the entry back and return it. -/
def update_category_metadata (now category user_id : String) (context : Option String)
    (store0 : CatStore) : CatStore × CatEntry :=
  let store1 :=
    match lookupA category store0 with
    | some _ => store0
    | none => setA category (freshCatEntry now) store0
  match lookupA category store1 with
  | none => (store1, freshCatEntry now)
  | some e0 =>
    let e1 := { e0 with frequency := e0.frequency + 1 }
    let e2 := { e1 with user_stats := touchUserStats now user_id e1.user_stats }
    let e3 := appendClue context e2
    (setA category e3 store1, e3)

/-- The sum of the per-user frequencies of a counter entry's `user_stats`. -/
def sumFreq (stats : List (String × UserStat)) : Nat :=
  (stats.map fun p => p.2.frequency).sum

/-- One `update_category_metadata` call: its wall-clock reading and the
category, owner and context-clue arguments. -/
structure CatCall where
  now : String
  category : String
  user_id : String
  context : Option String
deriving DecidableEq

/-- Replaying a sequence of `update_category_metadata` calls against the
empty categories store. -/
def applyCalls (calls : List CatCall) : CatStore :=
  calls.foldl
    (fun st c => (update_category_metadata c.now c.category c.user_id c.context st).1) []

/-- One projected suggestion of `get_suggested_categories`
(`{"name": ..., "frequency": ..., "last_used": ...}`). -/
structure SuggestedCategory where
  name : String
  frequency : Nat
  last_used : Option String
deriving DecidableEq

/-- The projection loop of `get_suggested_categories`: for every category
whose `user_stats` has the user's key, one suggestion record, in store order. -/
def user_categories (user_id : String) (store : CatStore) : List SuggestedCategory :=
  store.filterMap fun p =>
    (lookupA user_id p.2.user_stats).map fun s =>
      { name := p.1, frequency := s.frequency, last_used := s.last_used }

/-- The Python sort key `(x["frequency"], x["last_used"])`, compared
lexicographically; strings compare as their character sequences (code-point
lexicographic, Python's string order).  Sub-records written by
`update_category_metadata` always carry a `last_used` string; `getD ""`
merely totalises the comparison (Python raises on a `None` there). -/
def suggKey (c : SuggestedCategory) : Nat ×ₗ List Char :=
  toLex (c.frequency, (c.last_used.getD "").data)

/-- The descending order used by `sorted(..., reverse=True)`: `a` before `b`
when `a`'s key is at least `b`'s. -/
def suggGE (a b : SuggestedCategory) : Prop := suggKey b ≤ suggKey a

instance : DecidableRel suggGE := fun a b =>
  inferInstanceAs (Decidable (suggKey b ≤ suggKey a))

instance : IsTotal SuggestedCategory suggGE :=
  ⟨fun a b => (le_total (suggKey b) (suggKey a)).imp id id⟩

instance : IsTrans SuggestedCategory suggGE :=
  ⟨fun _ _ _ h1 h2 => le_trans h2 h1⟩

/-- Model of `storage.get_suggested_categories`: project the user's sub-records, sort
descending by `(frequency, last_used)` (stably, like Python `sorted`), take
the first `limit`. -/
def get_suggested_categories (user_id : String) (limit : Nat) (store : CatStore) :
    List SuggestedCategory :=
  ((user_categories user_id store).insertionSort suggGE).take limit

/-! ## Conversations (`storage.py`) -/

/-- A stored conversation/activity record.  The writers in the repository
build these dicts with different key sets, so every key a reader consults is
an `Option` field (except `timestamp`, which every writer sets; the empty
string stands for the falsy values skipped by readers). -/
structure Conversation where
  id : Option String
  user_id : Option String
  timestamp : String
  ctype : Option String
  category : Option String
  raw_conversation : List (String × String)
  processed_data : List String
deriving DecidableEq

/-- Input to `storage.add_conversation` (the `conversation_data` dict). -/
structure ConversationData where
  id : String
  ctype : Option String
  raw_conversation : Option (List (String × String))
  processed_data : Option (List String)
deriving DecidableEq

/-- Model of `storage.add_conversation`: append a record with keys `id`, `timestamp`,
`type`, `raw_conversation`, `processed_data` — and nothing else, in
particular no `user_id` — then save. -/
def add_conversation (now : String) (d : ConversationData)
    (conversations : List Conversation) : List Conversation :=
  conversations ++
    [{ id := some d.id
       user_id := none
       timestamp := now
       ctype := some (d.ctype.getD "voice")
       category := none
       raw_conversation := d.raw_conversation.getD []
       processed_data := d.processed_data.getD [] }]

/-- The `if start_date and conv["timestamp"] < start_date: continue` guard:
drop the record when a non-falsy lower bound is given and the timestamp is
strictly below it. -/
def startSkip (start_date : Option String) (t : String) : Bool :=
  match start_date with
  | none => false
  | some s => decide (s ≠ "") && decide (t.data < s.data)

/-- The `if end_date and conv["timestamp"] > end_date: continue` guard:
drop the record when a non-falsy upper bound is given and the timestamp is
strictly above it. -/
def endSkip (end_date : Option String) (t : String) : Bool :=
  match end_date with
  | none => false
  | some e => decide (e ≠ "") && decide (e.data < t.data)

/-- Model of `storage.get_conversations`: keep, in stored order, the records whose
`user_id` equals the argument and which neither bound guard drops. -/
def get_conversations (conversations : List Conversation) (user_id : String)
    (start_date end_date : Option String) : List Conversation :=
  conversations.filter fun conv =>
    conv.user_id == some user_id &&
    !startSkip start_date conv.timestamp &&
    !endSkip end_date conv.timestamp

/-- The owner/time-window filter the specification describes for
`getActivitiesForUser`: owner match and `start <= t < end`, start inclusive
and end exclusive. -/
def get_conversations_claimed (conversations : List Conversation) (user_id : String)
    (start_date end_date : String) : List Conversation :=
  conversations.filter fun conv =>
    conv.user_id == some user_id &&
    decide (start_date.data ≤ conv.timestamp.data) &&
    decide (conv.timestamp.data < end_date.data)

/-! ## Visualization aggregation (`main.py`, `get_visualizations`) -/

/-- The fixed category set of `main.py`. -/
def PREDEFINED_CATEGORIES : List String :=
  ["Work", "Health", "Learning", "Personal", "Creative", "Social"]

/-- The day axis of the pattern buckets. -/
def viz_days : List String :=
  ["Monday", "Tuesday", "Wednesday", "Thursday", "Friday", "Saturday", "Sunday"]

/-- The hour label `f"{hour:02d}:00"` (for hours 0–23). -/
def fmtHour (h : Nat) : String :=
  (if h < 10 then "0" else "") ++ toString h ++ ":00"

/-- The hour axis of the pattern buckets. -/
def viz_hours : List String := (List.range 24).map fmtHour

/-- A string-keyed counter dict. -/
abbrev CountMap := List (String × Nat)

/-- A dict of counter dicts (the daily/hourly pattern buckets). -/
abbrev NestedMap := List (String × CountMap)

/-- Python `m[k] = m.get(k, 0) + n`. -/
def incKey (k : String) (n : Nat) (m : CountMap) : CountMap :=
  setA k ((lookupA k m).getD 0 + n) m

/-- Python `buckets[k1][k2] += 1`.  Both keys are always present when this is
reached (`k1` comes off the fixed axis, `k2` passed the category-membership
check), so the defaults taken on absent keys are never exercised. -/
def bumpNested (k1 k2 : String) (m : NestedMap) : NestedMap :=
  match lookupA k1 m with
  | none => m
  | some inner => setA k1 (setA k2 ((lookupA k2 inner).getD 0 + 1) inner) m

/-- Python `dict((cat, 0) for cat in PREDEFINED_CATEGORIES)`. -/
def initCatMap : CountMap := PREDEFINED_CATEGORIES.map fun c => (c, 0)

/-- The four accumulated components of the visualization bundle
(`distribution`, `time_spent`, `daily_patterns`, `hourly_patterns`). -/
structure VizStats where
  distribution : CountMap
  time_spent : CountMap
  daily_patterns : NestedMap
  hourly_patterns : NestedMap
deriving DecidableEq

/-- The zero-initialised buckets built before the accumulation loop. -/
def vizInit : VizStats :=
  { distribution := initCatMap
    time_spent := initCatMap
    daily_patterns := viz_days.map fun d => (d, initCatMap)
    hourly_patterns := viz_hours.map fun h => (h, initCatMap) }

/-- Python `days[ts.weekday()]`. -/
def dayName (i : Fin 7) : String := viz_days.get (Fin.cast rfl i)

/-- One iteration of the accumulation loop: skip a falsy timestamp, parse it
(`parse` stands for `datetime.fromisoformat`, yielding weekday and hour),
skip categories outside the fixed set, otherwise bump distribution (+1),
time spent (+30) and the day and hour buckets. -/
def vizStep (parse : String → Fin 7 × Fin 24) (st : VizStats) (conv : Conversation) :
    VizStats :=
  if conv.timestamp = "" then st
  else
    let ts := parse conv.timestamp
    match conv.category with
    | none => st
    | some category =>
      if category ∈ PREDEFINED_CATEGORIES then
        { distribution := incKey category 1 st.distribution
          time_spent := incKey category 30 st.time_spent
          daily_patterns := bumpNested (dayName ts.1) category st.daily_patterns
          hourly_patterns := bumpNested (fmtHour ts.2.val) category st.hourly_patterns }
      else st

/-- The stats portion of `main.get_visualizations` (lines 483–536): filter the
stored conversations to the current user, then fold the accumulation loop
over them starting from the zero-initialised buckets. -/
def get_visualizations_stats (parse : String → Fin 7 × Fin 24) (owner : String)
    (conversations : List Conversation) : VizStats :=
  (conversations.filter fun conv => conv.user_id == some owner).foldl (vizStep parse) vizInit

/-! ## Helper lemmas -/

/-- A membership witness makes the linear username scan succeed. -/
theorem find_username_isSome {us : List UserRecord} {name : String}
    (h : ∃ u ∈ us, u.username = name) : ∃ v, find_username name us = some v := by
  induction us with
  | nil => simp at h
  | cons u us ih =>
    by_cases hu : u.username = name
    · exact ⟨u, by simp [find_username, hu]⟩
    · obtain ⟨w, hw, hwn⟩ := h
      rcases List.mem_cons.mp hw with rfl | hw'
      · exact absurd hwn hu
      · obtain ⟨v, hv⟩ := ih ⟨w, hw', hwn⟩
        exact ⟨v, by simp [find_username, hu, hv]⟩

/-- Looking up a key just stored finds the stored value. -/
theorem lookupA_setA_self {α : Type} (k : String) (v : α) (l : List (String × α)) :
    lookupA k (setA k v l) = some v := by
  induction l with
  | nil => simp [setA, lookupA]
  | cons p rest ih =>
    obtain ⟨k', v'⟩ := p
    by_cases hp : k' = k
    · simp [setA, hp, lookupA]
    · simp [setA, hp, lookupA, ih]

/-- A successful lookup exhibits a member of the association list. -/
theorem lookupA_mem {α : Type} {k : String} {v : α} {l : List (String × α)}
    (h : lookupA k l = some v) : (k, v) ∈ l := by
  induction l with
  | nil => simp [lookupA] at h
  | cons p rest ih =>
    obtain ⟨k', v'⟩ := p
    simp only [lookupA] at h
    split at h
    · next heq =>
      obtain rfl := heq
      obtain rfl : v' = v := by injection h
      exact List.mem_cons_self _ _
    · exact List.mem_cons_of_mem _ (ih h)

/-- Members of a store after `setA` are the new binding or old members. -/
theorem mem_setA {α : Type} {p : String × α} {k : String} {v : α}
    {l : List (String × α)} (h : p ∈ setA k v l) : p = (k, v) ∨ p ∈ l := by
  induction l with
  | nil => simpa [setA] using h
  | cons q rest ih =>
    obtain ⟨k', v'⟩ := q
    by_cases hk : k' = k
    · rcases List.mem_cons.mp (by simpa [setA, hk] using h) with h' | h'
      · exact Or.inl h'
      · exact Or.inr (List.mem_cons_of_mem _ h')
    · rcases List.mem_cons.mp (by simpa [setA, hk] using h) with h' | h'
      · exact Or.inr (h' ▸ List.mem_cons_self _ _)
      · rcases ih h' with h'' | h''
        · exact Or.inl h''
        · exact Or.inr (List.mem_cons_of_mem _ h'')

/-- Storing a fresh key appends it at the end. -/
theorem setA_of_lookupA_none {α : Type} {k : String} {l : List (String × α)}
    (h : lookupA k l = none) (v : α) : setA k v l = l ++ [(k, v)] := by
  induction l with
  | nil => simp [setA]
  | cons q rest ih =>
    obtain ⟨k', v'⟩ := q
    simp only [lookupA] at h
    by_cases hk : k' = k
    · simp [hk] at h
    · simp only [setA, hk, if_false, List.cons_append, List.cons.injEq, true_and]
      exact ih (by simpa [hk] using h)

/-- Storing under a fresh key adds its frequency to the per-user sum. -/
theorem sumFreq_setA_none {k : String} {l : List (String × UserStat)}
    (h : lookupA k l = none) (v : UserStat) :
    sumFreq (setA k v l) = sumFreq l + v.frequency := by
  rw [setA_of_lookupA_none h]
  simp [sumFreq]

/-- Overwriting an existing key exchanges its frequency in the per-user sum. -/
theorem sumFreq_setA_some {k : String} {s : UserStat} {l : List (String × UserStat)}
    (h : lookupA k l = some s) (v : UserStat) :
    sumFreq (setA k v l) + s.frequency = sumFreq l + v.frequency := by
  induction l with
  | nil => simp [lookupA] at h
  | cons q rest ih =>
    obtain ⟨k', v'⟩ := q
    simp only [lookupA] at h
    by_cases hk : k' = k
    · obtain rfl : v' = s := by simpa [hk] using h
      simp only [setA, hk, if_true, sumFreq, List.map_cons, List.sum_cons]
      omega
    · have := ih (by simpa [hk] using h)
      simp only [setA, hk, if_false, sumFreq, List.map_cons, List.sum_cons] at this ⊢
      omega

/-- One touch of the per-user block raises the per-user frequency sum by 1. -/
theorem sumFreq_touchUserStats (now user_id : String)
    (stats : List (String × UserStat)) :
    sumFreq (touchUserStats now user_id stats) = sumFreq stats + 1 := by
  unfold touchUserStats
  cases h0 : lookupA user_id stats with
  | some s =>
    simp only [h0]
    have h2 : sumFreq (setA user_id
        { s with frequency := s.frequency + 1, last_used := some now } stats) + s.frequency =
        sumFreq stats + (s.frequency + 1) := sumFreq_setA_some h0 _
    omega
  | none =>
    simp only [h0]
    have hfresh : lookupA user_id
        (setA user_id { frequency := 0, first_seen := now, last_used := none } stats) =
        some { frequency := 0, first_seen := now, last_used := none } :=
      lookupA_setA_self _ _ _
    simp only [hfresh]
    have h1 : sumFreq
        (setA user_id { frequency := 0, first_seen := now, last_used := none } stats) =
        sumFreq stats + 0 := sumFreq_setA_none h0 _
    have h2 : sumFreq (setA user_id
        { frequency := 0 + 1, first_seen := now, last_used := some now }
        (setA user_id { frequency := 0, first_seen := now, last_used := none } stats)) + 0 =
        sumFreq (setA user_id { frequency := 0, first_seen := now, last_used := none } stats)
          + (0 + 1) := sumFreq_setA_some hfresh _
    omega

/-- The `appendClue` step never changes the frequency or the per-user stats. -/
theorem appendClue_frequency (context : Option String) (e : CatEntry) :
    (appendClue context e).frequency = e.frequency ∧
      (appendClue context e).user_stats = e.user_stats := by
  cases context with
  | none => exact ⟨rfl, rfl⟩
  | some ctx =>
    by_cases h1 : ctx = "" <;> by_cases h2 : ctx ∈ e.context_clues <;>
      simp [appendClue, h1, h2]

/-- One `update_category_metadata` call keeps every entry's global frequency
equal to the sum of its per-user frequencies. -/
theorem update_preserves_freq_sum (now cat uid : String) (ctx : Option String)
    (store : CatStore)
    (hinv : ∀ p ∈ store, p.2.frequency = sumFreq p.2.user_stats) :
    ∀ p ∈ (update_category_metadata now cat uid ctx store).1,
      p.2.frequency = sumFreq p.2.user_stats := by
  unfold update_category_metadata
  cases h0 : lookupA cat store with
  | some e =>
    simp only [h0]
    intro p hp
    rcases mem_setA hp with rfl | hp'
    · dsimp only
      rw [(appendClue_frequency ctx _).1, (appendClue_frequency ctx _).2]
      dsimp only
      rw [sumFreq_touchUserStats]
      have he := hinv _ (lookupA_mem h0)
      dsimp only at he
      omega
    · exact hinv _ hp'
  | none =>
    simp only [h0, lookupA_setA_self]
    intro p hp
    rcases mem_setA hp with rfl | hp'
    · dsimp only
      rw [(appendClue_frequency ctx _).1, (appendClue_frequency ctx _).2]
      dsimp only
      rw [sumFreq_touchUserStats]
      simp [freshCatEntry, sumFreq]
    · rcases mem_setA hp' with rfl | hp''
      · simp [freshCatEntry, sumFreq]
      · exact hinv _ hp''

/-- Lookup in a list tabulating `f` over its keys. -/
theorem lookupA_map_pair {α : Type} (f : String → α) :
    ∀ {l : List String} {k : String}, k ∈ l →
      lookupA k (l.map fun x => (x, f x)) = some (f k) := by
  intro l
  induction l with
  | nil => intro k h; simp at h
  | cons a rest ih =>
    intro k h
    by_cases ha : a = k
    · simp [lookupA, ha]
    · rcases List.mem_cons.mp h with rfl | h'
      · exact absurd rfl ha
      · simp [lookupA, ha, ih h']

/-- Updating via `setA` under a different key leaves a lookup unchanged. -/
theorem lookupA_setA_ne {α : Type} {k k' : String} (h : k' ≠ k) (v : α)
    (l : List (String × α)) : lookupA k (setA k' v l) = lookupA k l := by
  induction l with
  | nil => simp [setA, lookupA, h]
  | cons q rest ih =>
    obtain ⟨k'', v''⟩ := q
    by_cases hk : k'' = k'
    · simp [setA, hk, lookupA, h, hk ▸ h]
    · simp [setA, hk, lookupA, ih]

/-- Updating via `setA` never removes a key. -/
theorem lookupA_setA_isSome {α : Type} {k k' : String} {v : α}
    {l : List (String × α)} (h : (lookupA k l).isSome) :
    (lookupA k (setA k' v l)).isSome := by
  by_cases hk : k' = k
  · subst hk; simp [lookupA_setA_self]
  · rwa [lookupA_setA_ne hk]

/-! ## Claims -/

/-- C5: for every well-formed user sequence `x` and every prior disk state,
`save_users x` followed by `load_users` returns exactly `x`, in order: the
save always writes the `{"users": x}` envelope and the load returns that
envelope's list unchanged. -/
theorem saveUsers_loadUsers_roundtrip (x : List UserRecord) (disk : UsersDisk)
    (now : String) : (load_users now (save_users x disk)).1 = x := rfl

/-- C1: whenever some record with the requested username is already present
in the persisted users collection, `create_user` fails with the duplicate
username error and the disk state after the call is exactly the state before
it — nothing is appended and no save happens. -/
theorem createUser_duplicate_rejected (hash : String → String) (now : String)
    (d : UserCreateData) (us : List UserRecord)
    (h : ∃ u ∈ us, u.username = d.username) :
    create_user hash now d (some (.envelopeUsers us)) =
      (Except.error CreateUserError.duplicateUsername, some (.envelopeUsers us)) := by
  obtain ⟨v, hv⟩ := find_username_isSome h
  simp [create_user, get_user_by_username, load_users, hv]

/-- Concrete run of C1: with `alice` already stored, creating `alice` again
errors out and leaves the disk untouched. -/
theorem createUser_duplicate_rejected_witness :
    (∃ u ∈ [demoUser "t0", { demoUser "t0" with username := "alice" }],
        u.username = "alice") ∧
      create_user (fun _ => "h") "t1"
          { username := "alice", email := "a@b.c", password := "password1",
            full_name := none }
          (some (.envelopeUsers [demoUser "t0", { demoUser "t0" with username := "alice" }])) =
        (Except.error CreateUserError.duplicateUsername,
          some (.envelopeUsers [demoUser "t0", { demoUser "t0" with username := "alice" }])) :=
  ⟨by decide, createUser_duplicate_rejected _ _ _ _ (by decide)⟩

/-- C10: every user record handed back by a successful `create_user`, a
successful `authenticate_user`, or a successful `get_current_user` is a
stored record with the `hashed_password` key removed and every other field
intact. -/
theorem responses_omit_password_hash (hash : String → String)
    (verify : String → String → Bool) (decodeSub : String → Option String)
    (now token username password : String) (d : UserCreateData) (disk : UsersDisk) :
    (∀ r, (create_user hash now d disk).1 = .ok r →
        r.hashed_password = none ∧
        ∃ us', (create_user hash now d disk).2 = some (.envelopeUsers us') ∧
          ∃ u ∈ us', u.hashed_password.isSome ∧ r = stripPassword u) ∧
    (∀ r, (authenticate_user verify now username password disk).1 = some r →
        r.hashed_password = none ∧
        ∃ u, (get_user_by_username now username disk).1 = some u ∧
          u.hashed_password.isSome ∧ r = stripPassword u) ∧
    (∀ r, (get_current_user decodeSub now token disk).1 = .ok r →
        r.hashed_password = none ∧
        ∃ uname u, decodeSub token = some uname ∧
          (get_user_by_username now uname disk).1 = some u ∧ r = stripPassword u) := by
  refine ⟨?_, ?_, ?_⟩
  · intro r hr
    simp only [create_user] at hr ⊢
    split at hr
    · simp at hr
    · next disk' heq =>
      simp only [Except.ok.injEq] at hr
      subst hr
      exact ⟨rfl, _, rfl, _, List.mem_append_right _ (List.mem_singleton.mpr rfl), rfl, rfl⟩
  · intro r hr
    simp only [authenticate_user] at hr
    split at hr
    · simp at hr
    · next user disk' heq =>
      split at hr
      · simp at hr
      · next hp hhp =>
        split at hr
        · simp only [Option.some.injEq] at hr
          subst hr
          exact ⟨rfl, user, by rw [heq], by rw [hhp]; rfl, rfl⟩
        · simp at hr
  · intro r hr
    simp only [get_current_user] at hr
    split at hr
    · simp at hr
    · next uname hdec =>
      split at hr
      · simp at hr
      · next user disk' heq =>
        simp only [Except.ok.injEq] at hr
        subst hr
        exact ⟨rfl, uname, user, hdec, by rw [heq], rfl⟩

/-- Stored record used to exercise the C10 theorem. -/
def hashWitUser : UserRecord :=
  { username := "alice", email := "alice@example.com", hashed_password := some "HP"
    created_at := "t0", settings := { theme := "dark", notifications_enabled := true }
    elevenlabs_key := none, full_name := none, last_login := none, is_demo := none }

/-- Disk state used to exercise the C10 theorem. -/
def hashWitDisk : UsersDisk := some (.envelopeUsers [hashWitUser])

/-- Concrete run of C10: all three operations succeed on a concrete store and
each returned record carries no password hash. -/
theorem responses_omit_password_hash_witness :
    (∃ r, (create_user (fun _ => "newhash") "t1"
        { username := "bob", email := "bob@example.com", password := "password1",
          full_name := none } hashWitDisk).1 = Except.ok r ∧
        r.hashed_password = none) ∧
    (∃ r, (authenticate_user (fun _ _ => true) "t1" "alice" "pw" hashWitDisk).1 = some r ∧
        r.hashed_password = none) ∧
    (∃ r, (get_current_user (fun _ => some "alice") "t1" "tok" hashWitDisk).1 =
        Except.ok r ∧ r.hashed_password = none) := by
  refine ⟨⟨_, rfl, ?_⟩, ⟨_, rfl, ?_⟩, ⟨_, rfl, ?_⟩⟩
  · exact ((responses_omit_password_hash (fun _ => "newhash") (fun _ _ => true)
      (fun _ => some "alice") "t1" "tok" "alice" "pw"
      { username := "bob", email := "bob@example.com", password := "password1",
        full_name := none } hashWitDisk).1 _ rfl).1
  · exact ((responses_omit_password_hash (fun _ => "newhash") (fun _ _ => true)
      (fun _ => some "alice") "t1" "tok" "alice" "pw"
      { username := "bob", email := "bob@example.com", password := "password1",
        full_name := none } hashWitDisk).2.1 _ rfl).1
  · exact ((responses_omit_password_hash (fun _ => "newhash") (fun _ _ => true)
      (fun _ => some "alice") "t1" "tok" "alice" "pw"
      { username := "bob", email := "bob@example.com", password := "password1",
        full_name := none } hashWitDisk).2.2 _ rfl).1

/-- C2: starting from a store with no `"Work"` entry, recording `"Work"` for
`alice` three times (at times `t1`, `t2`, `t3`) and then once for `bob` (at
`t4`) yields a `"Work"` entry with global frequency 4, an `alice` sub-record
with frequency 3, first seen `t1`, last used `t3`, and a `bob` sub-record
with frequency 1. -/
theorem recordCategoryUse_counts (store : CatStore) (t1 t2 t3 t4 : String)
    (h : lookupA "Work" store = none) :
    (update_category_metadata t4 "Work" "bob" none
        (update_category_metadata t3 "Work" "alice" none
          (update_category_metadata t2 "Work" "alice" none
            (update_category_metadata t1 "Work" "alice" none store).1).1).1).2.frequency = 4 ∧
    lookupA "alice"
        (update_category_metadata t4 "Work" "bob" none
          (update_category_metadata t3 "Work" "alice" none
            (update_category_metadata t2 "Work" "alice" none
              (update_category_metadata t1 "Work" "alice" none store).1).1).1).2.user_stats =
      some { frequency := 3, first_seen := t1, last_used := some t3 } ∧
    (lookupA "bob"
        (update_category_metadata t4 "Work" "bob" none
          (update_category_metadata t3 "Work" "alice" none
            (update_category_metadata t2 "Work" "alice" none
              (update_category_metadata t1 "Work" "alice" none store).1).1).1).2.user_stats).map
        UserStat.frequency = some 1 := by
  simp [update_category_metadata, h, lookupA_setA_self, touchUserStats, freshCatEntry,
    appendClue, lookupA, setA]

/-- Concrete run of C2 from the empty store. -/
theorem recordCategoryUse_counts_witness :
    lookupA "Work" ([] : CatStore) = none ∧
    ((update_category_metadata "t4" "Work" "bob" none
        (update_category_metadata "t3" "Work" "alice" none
          (update_category_metadata "t2" "Work" "alice" none
            (update_category_metadata "t1" "Work" "alice" none []).1).1).1).2.frequency = 4 ∧
      lookupA "alice"
          (update_category_metadata "t4" "Work" "bob" none
            (update_category_metadata "t3" "Work" "alice" none
              (update_category_metadata "t2" "Work" "alice" none
                (update_category_metadata "t1" "Work" "alice" none []).1).1).1).2.user_stats =
        some { frequency := 3, first_seen := "t1", last_used := some "t3" } ∧
      (lookupA "bob"
          (update_category_metadata "t4" "Work" "bob" none
            (update_category_metadata "t3" "Work" "alice" none
              (update_category_metadata "t2" "Work" "alice" none
                (update_category_metadata "t1" "Work" "alice" none []).1).1).1).2.user_stats).map
          UserStat.frequency = some 1) :=
  ⟨rfl, recordCategoryUse_counts [] "t1" "t2" "t3" "t4" rfl⟩

/-- C8: after any finite sequence of `update_category_metadata` calls replayed
against the empty categories store, every entry's global frequency equals the
sum of the frequencies of its per-user sub-records. -/
theorem globalFrequency_eq_userStats_sum (calls : List CatCall) :
    ∀ p ∈ applyCalls calls, p.2.frequency = sumFreq p.2.user_stats := by
  suffices h : ∀ store : CatStore,
      (∀ p ∈ store, p.2.frequency = sumFreq p.2.user_stats) →
      ∀ p ∈ calls.foldl
        (fun st c => (update_category_metadata c.now c.category c.user_id c.context st).1)
        store, p.2.frequency = sumFreq p.2.user_stats by
    exact h [] (by simp)
  induction calls with
  | nil => intro store hinv; simpa using hinv
  | cons c cs ih =>
    intro store hinv
    simp only [List.foldl_cons]
    exact ih _ (update_preserves_freq_sum _ _ _ _ _ hinv)

/-- Call sequence exercising the C8 theorem. -/
def freqWitCalls : List CatCall :=
  [⟨"t1", "Work", "alice", none⟩, ⟨"t2", "Work", "bob", none⟩]

/-- The `"Work"` entry produced by replaying `freqWitCalls`. -/
def freqWitEntry : CatEntry :=
  { frequency := 2, first_seen := "t1", context_clues := [], related_categories := []
    user_stats := [("alice", ⟨1, "t1", some "t1"⟩), ("bob", ⟨1, "t2", some "t2"⟩)] }

/-- Concrete run of C8: after two calls the `"Work"` entry's global frequency
(2) equals the sum of the per-user frequencies (1 + 1). -/
theorem globalFrequency_eq_userStats_sum_witness :
    ("Work", freqWitEntry) ∈ applyCalls freqWitCalls ∧
      freqWitEntry.frequency = sumFreq freqWitEntry.user_stats :=
  ⟨by decide, globalFrequency_eq_userStats_sum freqWitCalls ("Work", freqWitEntry) (by decide)⟩

/-- C9: a record appended by `add_conversation` carries no `user_id` key, so
`get_conversations` afterwards returns exactly what it returned before, for
every owner and every date bounds — the appended record is invisible to every
owner-scoped query. -/
theorem addConversation_invisible_to_owner_queries (now : String)
    (d : ConversationData) (convs : List Conversation) (user_id : String)
    (start_date end_date : Option String) :
    get_conversations (add_conversation now d convs) user_id start_date end_date =
      get_conversations convs user_id start_date end_date := by
  simp [get_conversations, add_conversation, List.filter_append]

/-- A record sitting exactly on the upper bound of a query window. -/
def boundaryConv : Conversation :=
  { id := none, user_id := some "alice", timestamp := "2024-01-02T00:00:00"
    ctype := none, category := none, raw_conversation := [], processed_data := [] }

/-- C3, counterexample: a record whose timestamp equals the `end` bound is
returned by `get_conversations` (the code's upper bound is inclusive), while
the claimed `[start, end)` filter excludes it — so the code disagrees with the
claimed end-exclusive window on this input. -/
theorem getConversations_end_not_exclusive :
    get_conversations [boundaryConv] "alice"
        (some "2024-01-01T00:00:00") (some "2024-01-02T00:00:00") = [boundaryConv] ∧
      get_conversations_claimed [boundaryConv] "alice"
        "2024-01-01T00:00:00" "2024-01-02T00:00:00" = [] ∧
      get_conversations [boundaryConv] "alice"
          (some "2024-01-01T00:00:00") (some "2024-01-02T00:00:00") ≠
        get_conversations_claimed [boundaryConv] "alice"
          "2024-01-01T00:00:00" "2024-01-02T00:00:00" := by
  refine ⟨by decide, by decide, ?_⟩
  intro h
  have h1 : get_conversations [boundaryConv] "alice"
      (some "2024-01-01T00:00:00") (some "2024-01-02T00:00:00") = [boundaryConv] := by decide
  have h2 : get_conversations_claimed [boundaryConv] "alice"
      "2024-01-01T00:00:00" "2024-01-02T00:00:00" = ([] : List Conversation) := by decide
  rw [h1, h2] at h
  exact absurd h (by decide)

/-- C3 (amended): for every owner, stored collection and non-empty bound
strings, `get_conversations` returns exactly the records whose `user_id`
equals the owner and whose timestamp `t` satisfies `start <= t` and
`t <= end` under lexicographic string comparison — both bounds inclusive —
preserving stored order. -/
theorem getConversations_owner_window_inclusive (convs : List Conversation)
    (user_id start_date end_date : String)
    (hsd : start_date ≠ "") (hed : end_date ≠ "") :
    get_conversations convs user_id (some start_date) (some end_date) =
      convs.filter fun c =>
        c.user_id == some user_id &&
        decide (start_date.data ≤ c.timestamp.data) &&
        decide (c.timestamp.data ≤ end_date.data) := by
  unfold get_conversations
  apply List.filter_congr
  intro c _
  have h1 : decide (start_date ≠ "") = true := by simpa using hsd
  have h2 : decide (end_date ≠ "") = true := by simpa using hed
  simp only [startSkip, endSkip, h1, h2, Bool.true_and, ← decide_not, not_lt]

/-- Concrete run of the amended C3: an in-window record is kept, both sides
agreeing, with both bounds non-empty. -/
theorem getConversations_owner_window_inclusive_witness :
    ("2024-01-01T00:00:00" : String) ≠ "" ∧ ("2024-01-02T00:00:00" : String) ≠ "" ∧
      get_conversations [boundaryConv] "alice"
          (some "2024-01-01T00:00:00") (some "2024-01-02T00:00:00") =
        [boundaryConv].filter fun c =>
          c.user_id == some "alice" &&
          decide ("2024-01-01T00:00:00".data ≤ c.timestamp.data) &&
          decide (c.timestamp.data ≤ "2024-01-02T00:00:00".data) :=
  ⟨by decide, by decide,
    getConversations_owner_window_inclusive [boundaryConv] "alice"
      "2024-01-01T00:00:00" "2024-01-02T00:00:00" (by decide) (by decide)⟩

/-- The counters of the C4 example: `Work` frequency 5, `Health` frequency 5
used later, `Social` frequency 1, all projected for `alice`. -/
def suggExampleStore : CatStore :=
  [("Work",
    { frequency := 5, first_seen := "t0", context_clues := [], related_categories := []
      user_stats := [("alice", ⟨5, "t0", some "2024-01-01T10:00:00"⟩)] }),
   ("Health",
    { frequency := 5, first_seen := "t0", context_clues := [], related_categories := []
      user_stats := [("alice", ⟨5, "t0", some "2024-01-02T10:00:00"⟩)] }),
   ("Social",
    { frequency := 1, first_seen := "t0", context_clues := [], related_categories := []
      user_stats := [("alice", ⟨1, "t0", some "2024-01-01T09:00:00"⟩)] })]

/-- C4: whenever every projected sub-record carries a `last_used` string (as
every record written by `update_category_metadata` does — Python raises
otherwise), `get_suggested_categories` returns the first `limit` elements of
a rearrangement of the owner's projected categories that is sorted descending
in the lexicographic `(frequency, last_used)` order, so its output is that
sorted projection truncated to at most `limit` elements; on the concrete
`Work`/`Health`/`Social` counters with limit 2 it returns `Health` then
`Work`. -/
theorem suggestedCategories_sorted_desc :
    (∀ (store : CatStore) (user_id : String) (limit : Nat),
      (∀ c ∈ user_categories user_id store, c.last_used.isSome) →
      ∃ full, full.Perm (user_categories user_id store) ∧
        List.Sorted suggGE full ∧
        get_suggested_categories user_id limit store = full.take limit ∧
        (get_suggested_categories user_id limit store).length ≤ limit) ∧
    get_suggested_categories "alice" 2 suggExampleStore =
      [{ name := "Health", frequency := 5, last_used := some "2024-01-02T10:00:00" },
       { name := "Work", frequency := 5, last_used := some "2024-01-01T10:00:00" }] := by
  constructor
  · intro store user_id limit _hsome
    refine ⟨(user_categories user_id store).insertionSort suggGE,
      List.perm_insertionSort suggGE _, List.sorted_insertionSort suggGE _, rfl, ?_⟩
    exact List.length_take_le _ _
  · decide

/-- Concrete run of C4: on the example counters every projected sub-record
has a `last_used` string, and the suggestion list is a sorted, truncated
rearrangement of the projection. -/
theorem suggestedCategories_sorted_desc_witness :
    (∀ c ∈ user_categories "alice" suggExampleStore, c.last_used.isSome) ∧
      ∃ full, full.Perm (user_categories "alice" suggExampleStore) ∧
        List.Sorted suggGE full ∧
        get_suggested_categories "alice" 2 suggExampleStore = full.take 2 ∧
        (get_suggested_categories "alice" 2 suggExampleStore).length ≤ 2 :=
  ⟨by decide, (suggestedCategories_sorted_desc.1 suggExampleStore "alice" 2 (by decide))⟩

/-- C6: when no stored conversation belongs to the owner, the visualization
bundle is fully zero-initialised: `distribution` and `time_spent` hold an
entry with value 0 for every category of the fixed set, and the daily and
hourly patterns hold a 0 entry for every weekday-name × category and
hour-label × category combination — no key is absent. -/
theorem visualizations_zero_activities_complete (parse : String → Fin 7 × Fin 24)
    (owner : String) (convs : List Conversation)
    (h : ∀ c ∈ convs, c.user_id ≠ some owner) :
    (∀ cat ∈ PREDEFINED_CATEGORIES,
      lookupA cat (get_visualizations_stats parse owner convs).distribution = some 0 ∧
      lookupA cat (get_visualizations_stats parse owner convs).time_spent = some 0) ∧
    (∀ d ∈ viz_days, ∀ cat ∈ PREDEFINED_CATEGORIES,
      (lookupA d (get_visualizations_stats parse owner convs).daily_patterns).bind
        (lookupA cat) = some 0) ∧
    (∀ hr ∈ viz_hours, ∀ cat ∈ PREDEFINED_CATEGORIES,
      (lookupA hr (get_visualizations_stats parse owner convs).hourly_patterns).bind
        (lookupA cat) = some 0) := by
  have hfil : (convs.filter fun conv => conv.user_id == some owner) = [] := by
    apply List.filter_eq_nil_iff.mpr
    intro c hc
    simpa using h c hc
  have hst : get_visualizations_stats parse owner convs = vizInit := by
    unfold get_visualizations_stats
    rw [hfil]
    rfl
  rw [hst]
  refine ⟨?_, ?_, ?_⟩
  · intro cat hcat
    exact ⟨lookupA_map_pair (fun _ => 0) hcat, lookupA_map_pair (fun _ => 0) hcat⟩
  · intro d hd cat hcat
    have h1 : lookupA d (vizInit.daily_patterns) = some initCatMap :=
      lookupA_map_pair (fun _ => initCatMap) hd
    rw [h1]
    exact lookupA_map_pair (fun _ => 0) hcat
  · intro hr hhr cat hcat
    have h1 : lookupA hr (vizInit.hourly_patterns) = some initCatMap :=
      lookupA_map_pair (fun _ => initCatMap) hhr
    rw [h1]
    exact lookupA_map_pair (fun _ => 0) hcat

/-- Concrete run of C6: a store holding only someone else's record yields the
fully zero-initialised bundle for `alice`. -/
theorem visualizations_zero_activities_complete_witness :
    (∀ c ∈ [{ boundaryConv with user_id := some "bob" }], c.user_id ≠ some "alice") ∧
      ((∀ cat ∈ PREDEFINED_CATEGORIES,
        lookupA cat (get_visualizations_stats (fun _ => (0, 0)) "alice"
          [{ boundaryConv with user_id := some "bob" }]).distribution = some 0 ∧
        lookupA cat (get_visualizations_stats (fun _ => (0, 0)) "alice"
          [{ boundaryConv with user_id := some "bob" }]).time_spent = some 0) ∧
      (∀ d ∈ viz_days, ∀ cat ∈ PREDEFINED_CATEGORIES,
        (lookupA d (get_visualizations_stats (fun _ => (0, 0)) "alice"
          [{ boundaryConv with user_id := some "bob" }]).daily_patterns).bind
          (lookupA cat) = some 0) ∧
      (∀ hr ∈ viz_hours, ∀ cat ∈ PREDEFINED_CATEGORIES,
        (lookupA hr (get_visualizations_stats (fun _ => (0, 0)) "alice"
          [{ boundaryConv with user_id := some "bob" }]).hourly_patterns).bind
          (lookupA cat) = some 0)) :=
  ⟨by decide,
    visualizations_zero_activities_complete (fun _ => (0, 0)) "alice"
      [{ boundaryConv with user_id := some "bob" }] (by decide)⟩

/-- A record whose category lies outside the fixed set is a no-op for the
accumulation loop. -/
theorem vizStep_skip (parse : String → Fin 7 × Fin 24) (st : VizStats)
    (misc : Conversation)
    (hmisc : ∀ cat, misc.category = some cat → cat ∉ PREDEFINED_CATEGORIES) :
    vizStep parse st misc = st := by
  unfold vizStep
  by_cases ht : misc.timestamp = ""
  · simp [ht]
  · cases hc : misc.category with
    | none => simp [ht, hc]
    | some cat => simp [ht, hc, hmisc cat hc]

/-- One loop iteration keeps every fixed category present in the
distribution and time-spent maps. -/
theorem vizStep_preserves_complete (parse : String → Fin 7 × Fin 24)
    (st : VizStats) (c : Conversation)
    (h : ∀ cat ∈ PREDEFINED_CATEGORIES,
      (lookupA cat st.distribution).isSome ∧ (lookupA cat st.time_spent).isSome) :
    ∀ cat ∈ PREDEFINED_CATEGORIES,
      (lookupA cat (vizStep parse st c).distribution).isSome ∧
      (lookupA cat (vizStep parse st c).time_spent).isSome := by
  intro cat hcat
  unfold vizStep
  by_cases ht : c.timestamp = ""
  · simpa [ht] using h cat hcat
  · cases hc : c.category with
    | none => simpa [ht, hc] using h cat hcat
    | some cc =>
      by_cases hin : cc ∈ PREDEFINED_CATEGORIES
      · simp only [ht, hc, hin, if_true, if_false, ite_false, ite_true]
        simp only [incKey]
        exact ⟨lookupA_setA_isSome (h cat hcat).1, lookupA_setA_isSome (h cat hcat).2⟩
      · simpa [ht, hc, hin] using h cat hcat

/-- The whole loop keeps every fixed category present. -/
theorem foldl_vizStep_complete (parse : String → Fin 7 × Fin 24) :
    ∀ (convs : List Conversation) (st : VizStats),
      (∀ cat ∈ PREDEFINED_CATEGORIES,
        (lookupA cat st.distribution).isSome ∧ (lookupA cat st.time_spent).isSome) →
      ∀ cat ∈ PREDEFINED_CATEGORIES,
        (lookupA cat (convs.foldl (vizStep parse) st).distribution).isSome ∧
        (lookupA cat (convs.foldl (vizStep parse) st).time_spent).isSome := by
  intro convs
  induction convs with
  | nil => intro st h; simpa using h
  | cons c cs ih =>
    intro st h
    simp only [List.foldl_cons]
    exact ih _ (vizStep_preserves_complete parse st c h)

/-- C7: an activity record whose category is outside the fixed set (or
absent) contributes nothing to the distribution, time-spent, daily or hourly
buckets — removing it from the stored collection leaves all four identical —
and the aggregation still returns a complete bundle with every fixed
category present. -/
theorem misc_category_contributes_nothing (parse : String → Fin 7 × Fin 24)
    (owner : String) (l1 l2 : List Conversation) (misc : Conversation)
    (hmisc : ∀ cat, misc.category = some cat → cat ∉ PREDEFINED_CATEGORIES) :
    get_visualizations_stats parse owner (l1 ++ misc :: l2) =
      get_visualizations_stats parse owner (l1 ++ l2) ∧
    ∀ cat ∈ PREDEFINED_CATEGORIES,
      (lookupA cat
        (get_visualizations_stats parse owner (l1 ++ misc :: l2)).distribution).isSome ∧
      (lookupA cat
        (get_visualizations_stats parse owner (l1 ++ misc :: l2)).time_spent).isSome := by
  constructor
  · unfold get_visualizations_stats
    rw [List.filter_append, List.filter_append, List.filter_cons]
    by_cases hu : (misc.user_id == some owner) = true
    · rw [if_pos hu, List.foldl_append, List.foldl_append, List.foldl_cons,
        vizStep_skip parse _ misc hmisc]
    · rw [if_neg hu]
  · intro cat hcat
    have hinit : ∀ cat ∈ PREDEFINED_CATEGORIES,
        (lookupA cat vizInit.distribution).isSome ∧
        (lookupA cat vizInit.time_spent).isSome := by
      intro c hc
      have h0 : lookupA c initCatMap = some 0 := lookupA_map_pair (fun _ => 0) hc
      constructor
      · rw [show vizInit.distribution = initCatMap from rfl, h0]; rfl
      · rw [show vizInit.time_spent = initCatMap from rfl, h0]; rfl
    exact foldl_vizStep_complete parse
      ((l1 ++ misc :: l2).filter fun conv => conv.user_id == some owner)
      vizInit hinit cat hcat

/-- The out-of-set record used to exercise C7: owned by `alice`, categorised
`"Misc"`. -/
def miscConv : Conversation :=
  { id := none, user_id := some "alice", timestamp := "2024-01-02T00:00:00"
    ctype := none, category := some "Misc", raw_conversation := [], processed_data := [] }

/-- Concrete run of C7: a `"Misc"`-categorised record owned by the queried
user changes none of the four bucket maps, and the output stays complete. -/
theorem misc_category_contributes_nothing_witness :
    get_visualizations_stats (fun _ => (0, 0)) "alice" ([] ++ miscConv :: []) =
      get_visualizations_stats (fun _ => (0, 0)) "alice" ([] ++ []) ∧
    ∀ cat ∈ PREDEFINED_CATEGORIES,
      (lookupA cat (get_visualizations_stats (fun _ => (0, 0)) "alice"
        ([] ++ miscConv :: [])).distribution).isSome ∧
      (lookupA cat (get_visualizations_stats (fun _ => (0, 0)) "alice"
        ([] ++ miscConv :: [])).time_spent).isSome :=
  misc_category_contributes_nothing (fun _ => (0, 0)) "alice" [] [] miscConv
    (by intro cat h; simp only [miscConv, Option.some.injEq] at h; subst h; decide)

end VibeTrack
